import Mathlib

/-!
Verification of the caching / background-job layer of the electrical-estimation
backend (`performance_optimization.py`), as described by the repository
specification.  The Python code is shallowly embedded: machine words are `Nat`
with explicit reduction modulo `2 ^ 32`, fallible operations return `Except`,
and the Redis store, Celery task execution and monitor state are explicit
state values.
-/

namespace EstimationApp

/-! ### Byte and 32-bit word helpers -/

/-- UTF-8 encoding of a Unicode code point. -/
def utf8Bytes (c : Nat) : List Nat :=
  if c < 128 then [c]
  else if c < 2048 then [192 + c / 64, 128 + c % 64]
  else if c < 65536 then [224 + c / 4096, 128 + c / 64 % 64, 128 + c % 64]
  else [240 + c / 262144, 128 + c / 4096 % 64, 128 + c / 64 % 64, 128 + c % 64]

/-- UTF-8 bytes of a string (`s.encode()` in Python), as naturals below 256. -/
def strBytes (s : String) : List Nat := (s.data.map (fun ch => utf8Bytes ch.toNat)).flatten

/-- Reduce modulo `2 ^ 32` (32-bit machine word). -/
def w32 (n : Nat) : Nat := n % 4294967296

/-- Bitwise complement of a 32-bit word. -/
def wnot (x : Nat) : Nat := 4294967295 - x % 4294967296

/-- Rotate a 32-bit word left by `c` (for `0 < c < 32`). -/
def rotl32 (x c : Nat) : Nat := w32 (x * 2 ^ c + x / 2 ^ (32 - c))

/-- Rotate a 32-bit word right by `c` (for `0 < c < 32`). -/
def rotr32 (x c : Nat) : Nat := x / 2 ^ c + x % 2 ^ c * 2 ^ (32 - c)

/-- Shift a 32-bit word right by `c`. -/
def shr32 (x c : Nat) : Nat := x / 2 ^ c

/-- Low hex digit character. -/
def hexChar (n : Nat) : Char := if n < 10 then Char.ofNat (48 + n) else Char.ofNat (87 + n)

/-- Lowercase hex rendering of a byte list. -/
def bytesToHex (bs : List Nat) : String :=
  String.mk ((bs.map (fun b => [hexChar (b / 16), hexChar (b % 16)])).flatten)

/-- Split a byte list into 64-byte blocks (structural recursion on a fuel
bound; `fuel = l.length` always suffices since each step drops 64 bytes). -/
def toBlocksAux : Nat → List Nat → List (List Nat)
  | _, [] => []
  | 0, l => [l]
  | fuel + 1, l => l.take 64 :: toBlocksAux fuel (l.drop 64)

/-- Split a byte list into 64-byte blocks. -/
def toBlocks (l : List Nat) : List (List Nat) := toBlocksAux l.length l

/-- Little-endian 32-bit word `j` of a 64-byte block. -/
def leWord (block : List Nat) (j : Nat) : Nat :=
  block.getD (4 * j) 0 + block.getD (4 * j + 1) 0 * 256 +
    block.getD (4 * j + 2) 0 * 65536 + block.getD (4 * j + 3) 0 * 16777216

/-- Big-endian 32-bit word `j` of a 64-byte block. -/
def beWord (block : List Nat) (j : Nat) : Nat :=
  block.getD (4 * j) 0 * 16777216 + block.getD (4 * j + 1) 0 * 65536 +
    block.getD (4 * j + 2) 0 * 256 + block.getD (4 * j + 3) 0

/-- Little-endian byte rendering of a 32-bit word. -/
def leBytes (w : Nat) : List Nat := [w % 256, w / 256 % 256, w / 65536 % 256, w / 16777216 % 256]

/-- Big-endian byte rendering of a 32-bit word. -/
def beBytes (w : Nat) : List Nat := [w / 16777216 % 256, w / 65536 % 256, w / 256 % 256, w % 256]

/-! ### MD5 (RFC 1321) — the digest `hashlib.md5` used by `get_cache_key` -/

/-- MD5 round constants `K[i] = floor(2^32 * abs(sin(i+1)))`. -/
def md5K : List Nat := [3614090360, 3905402710, 606105819, 3250441966, 4118548399, 1200080426, 2821735955, 4249261313, 1770035416, 2336552879, 4294925233, 2304563134, 1804603682, 4254626195, 2792965006, 1236535329, 4129170786, 3225465664, 643717713, 3921069994, 3593408605, 38016083, 3634488961, 3889429448, 568446438, 3275163606, 4107603335, 1163531501, 2850285829, 4243563512, 1735328473, 2368359562, 4294588738, 2272392833, 1839030562, 4259657740, 2763975236, 1272893353, 4139469664, 3200236656, 681279174, 3936430074, 3572445317, 76029189, 3654602809, 3873151461, 530742520, 3299628645, 4096336452, 1126891415, 2878612391, 4237533241, 1700485571, 2399980690, 4293915773, 2240044497, 1873313359, 4264355552, 2734768916, 1309151649, 4149444226, 3174756917, 718787259, 3951481745]

/-- MD5 per-round left-rotation amounts. -/
def md5S : List Nat := [7, 12, 17, 22, 7, 12, 17, 22, 7, 12, 17, 22, 7, 12, 17, 22, 5, 9, 14, 20, 5, 9, 14, 20, 5, 9, 14, 20, 5, 9, 14, 20, 4, 11, 16, 23, 4, 11, 16, 23, 4, 11, 16, 23, 4, 11, 16, 23, 6, 10, 15, 21, 6, 10, 15, 21, 6, 10, 15, 21, 6, 10, 15, 21]

/-- MD5 padding: `0x80`, zeros to 56 mod 64, then the bit length little-endian. -/
def md5Pad (msg : List Nat) : List Nat :=
  let len := msg.length
  let zeros := (120 - (len + 1) % 64) % 64
  let bitLen := len * 8 % 18446744073709551616
  msg ++ [128] ++ List.replicate zeros 0 ++
    (List.range 8).map (fun i => bitLen / 2 ^ (8 * i) % 256)

/-- MD5 nonlinear round function. -/
def md5F (i b c d : Nat) : Nat :=
  if i < 16 then Nat.lor (Nat.land b c) (Nat.land (wnot b) d)
  else if i < 32 then Nat.lor (Nat.land d b) (Nat.land (wnot d) c)
  else if i < 48 then Nat.xor b (Nat.xor c d)
  else Nat.xor c (Nat.lor b (wnot d))

/-- MD5 message-word index for round `i`. -/
def md5G (i : Nat) : Nat :=
  if i < 16 then i
  else if i < 32 then (5 * i + 1) % 16
  else if i < 48 then (3 * i + 5) % 16
  else 7 * i % 16

/-- One MD5 round. -/
def md5Step (block : List Nat) (st : Nat × Nat × Nat × Nat) (i : Nat) : Nat × Nat × Nat × Nat :=
  let (a, b, c, d) := st
  let f := w32 (md5F i b c d + a + md5K.getD i 0 + leWord block (md5G i))
  (d, w32 (b + rotl32 f (md5S.getD i 0)), b, c)

/-- Process one 64-byte block. -/
def md5Block (st : Nat × Nat × Nat × Nat) (block : List Nat) : Nat × Nat × Nat × Nat :=
  let (a, b, c, d) := (List.range 64).foldl (md5Step block) st
  (w32 (st.1 + a), w32 (st.2.1 + b), w32 (st.2.2.1 + c), w32 (st.2.2.2 + d))

/-- MD5 digest of a byte list. -/
def md5Digest (msg : List Nat) : List Nat :=
  let st := (toBlocks (md5Pad msg)).foldl md5Block (1732584193, 4023233417, 2562383102, 271733878)
  leBytes st.1 ++ leBytes st.2.1 ++ leBytes st.2.2.1 ++ leBytes st.2.2.2

/-- `hashlib.md5(s.encode()).hexdigest()`. -/
def md5hex (s : String) : String := bytesToHex (md5Digest (strBytes s))

/-! ### SHA-256 (FIPS 180-4) — the digest the specification prescribes -/

/-- SHA-256 round constants (fractional cube roots of the first 64 primes). -/
def sha256K : List Nat := [1116352408, 1899447441, 3049323471, 3921009573, 961987163, 1508970993, 2453635748, 2870763221, 3624381080, 310598401, 607225278, 1426881987, 1925078388, 2162078206, 2614888103, 3248222580, 3835390401, 4022224774, 264347078, 604807628, 770255983, 1249150122, 1555081692, 1996064986, 2554220882, 2821834349, 2952996808, 3210313671, 3336571891, 3584528711, 113926993, 338241895, 666307205, 773529912, 1294757372, 1396182291, 1695183700, 1986661051, 2177026350, 2456956037, 2730485921, 2820302411, 3259730800, 3345764771, 3516065817, 3600352804, 4094571909, 275423344, 430227734, 506948616, 659060556, 883997877, 958139571, 1322822218, 1537002063, 1747873779, 1955562222, 2024104815, 2227730452, 2361852424, 2428436474, 2756734187, 3204031479, 3329325298]

/-- SHA-256 padding: like MD5 but the bit length is big-endian. -/
def sha256Pad (msg : List Nat) : List Nat :=
  let len := msg.length
  let zeros := (120 - (len + 1) % 64) % 64
  let bitLen := len * 8 % 18446744073709551616
  msg ++ [128] ++ List.replicate zeros 0 ++
    (List.range 8).map (fun i => bitLen / 2 ^ (8 * (7 - i)) % 256)

/-- SHA-256 choice function. -/
def sha256Ch (x y z : Nat) : Nat := Nat.xor (Nat.land x y) (Nat.land (wnot x) z)

/-- SHA-256 majority function. -/
def sha256Maj (x y z : Nat) : Nat :=
  Nat.xor (Nat.xor (Nat.land x y) (Nat.land x z)) (Nat.land y z)

/-- SHA-256 big Σ₀. -/
def bSig0 (x : Nat) : Nat := Nat.xor (Nat.xor (rotr32 x 2) (rotr32 x 13)) (rotr32 x 22)

/-- SHA-256 big Σ₁. -/
def bSig1 (x : Nat) : Nat := Nat.xor (Nat.xor (rotr32 x 6) (rotr32 x 11)) (rotr32 x 25)

/-- SHA-256 small σ₀. -/
def sSig0 (x : Nat) : Nat := Nat.xor (Nat.xor (rotr32 x 7) (rotr32 x 18)) (shr32 x 3)

/-- SHA-256 small σ₁. -/
def sSig1 (x : Nat) : Nat := Nat.xor (Nat.xor (rotr32 x 17) (rotr32 x 19)) (shr32 x 10)

/-- Message schedule: 16 block words extended to 64. -/
def sha256Schedule (block : List Nat) : List Nat :=
  (List.range 48).foldl
    (fun ws _ =>
      let n := ws.length
      ws ++ [w32 (sSig1 (ws.getD (n - 2) 0) + ws.getD (n - 7) 0 +
        sSig0 (ws.getD (n - 15) 0) + ws.getD (n - 16) 0)])
    ((List.range 16).map (beWord block))

/-- SHA-256 working state: eight 32-bit words. -/
structure Sha256St where
  a : Nat
  b : Nat
  c : Nat
  d : Nat
  e : Nat
  f : Nat
  g : Nat
  h : Nat
deriving DecidableEq

/-- One SHA-256 round. -/
def sha256Round (ws : List Nat) (st : Sha256St) (i : Nat) : Sha256St :=
  let t1 := w32 (st.h + bSig1 st.e + sha256Ch st.e st.f st.g + sha256K.getD i 0 + ws.getD i 0)
  let t2 := w32 (bSig0 st.a + sha256Maj st.a st.b st.c)
  ⟨w32 (t1 + t2), st.a, st.b, st.c, w32 (st.d + t1), st.e, st.f, st.g⟩

/-- Process one 64-byte block. -/
def sha256Block (st : Sha256St) (block : List Nat) : Sha256St :=
  let ws := sha256Schedule block
  let r := (List.range 64).foldl (sha256Round ws) st
  ⟨w32 (st.a + r.a), w32 (st.b + r.b), w32 (st.c + r.c), w32 (st.d + r.d),
    w32 (st.e + r.e), w32 (st.f + r.f), w32 (st.g + r.g), w32 (st.h + r.h)⟩

/-- SHA-256 digest of a byte list. -/
def sha256Digest (msg : List Nat) : List Nat :=
  let st := (toBlocks (sha256Pad msg)).foldl sha256Block
    ⟨1779033703, 3144134277, 1013904242, 2773480762, 1359893119, 2600822924, 528734635, 1541459225⟩
  beBytes st.a ++ beBytes st.b ++ beBytes st.c ++ beBytes st.d ++
    beBytes st.e ++ beBytes st.f ++ beBytes st.g ++ beBytes st.h

/-- `hashlib.sha256(s.encode()).hexdigest()`. -/
def sha256hex (s : String) : String := bytesToHex (sha256Digest (strBytes s))

/-! ### Python value fragment

The values that flow through the cache in this module are Python objects; the
fragment needed by the claims is integers and strings.  `pyStrOf` is Python
`str()` on this fragment, `pyEval` is Python `eval()` restricted to the
expressions that arise from cached text (integer literals, sums of integer
literals, bare identifiers — which raise `NameError` — and everything else,
which raises `SyntaxError`), and `jsonLoads` is `json.loads` on the same
fragment (integer literals and double-quoted strings). -/

inductive PyVal
  | pyInt (n : Int)
  | pyStr (s : String)
deriving DecidableEq

/-- Python `str()` on the modelled fragment: decimal rendering for integers,
the string itself (unquoted) for strings. -/
def pyStrOf : PyVal → String
  | .pyInt n => toString n
  | .pyStr s => s

/-- The exceptions Python `eval` raises on the modelled fragment. -/
inductive PyErr
  | nameError
  | syntaxError
deriving DecidableEq

/-- Digits of a decimal literal, as a natural number. -/
def parseNatList (cs : List Char) : Nat :=
  cs.foldl (fun acc c => acc * 10 + (c.toNat - 48)) 0

/-- Parse an optionally negated decimal integer literal. -/
def parseIntLit (cs : List Char) : Option Int :=
  match cs with
  | [] => none
  | c :: rest =>
    if c == '-' then
      if rest ≠ [] ∧ rest.all (fun d => d.isDigit) then some (-(parseNatList rest : Int))
      else none
    else if (c :: rest).all (fun d => d.isDigit) then some (parseNatList (c :: rest) : Int)
    else none

/-- Is the token a Python identifier? -/
def isIdent : List Char → Bool
  | [] => false
  | c :: rest => (c.isAlpha || c == '_') && rest.all (fun d => d.isAlphanum || d == '_')

/-- Split a character list at each `+` sign. -/
def splitPlus : List Char → List (List Char)
  | [] => [[]]
  | c :: rest =>
    let r := splitPlus rest
    if c == '+' then [] :: r
    else (c :: r.headD []) :: r.tail

/-- Python `eval()` on the fragment reachable from cached text in this module:
a `+`-separated sequence of integer literals evaluates (the cached string is
executed as code), a bare identifier raises `NameError`, anything else raises
`SyntaxError`. -/
def pyEval (s : String) : Except PyErr PyVal :=
  let toks := splitPlus s.data
  if toks.all (fun t => (parseIntLit t).isSome) then
    .ok (.pyInt ((toks.map (fun t => (parseIntLit t).getD 0)).foldl (· + ·) 0))
  else if toks.any isIdent then .error .nameError
  else .error .syntaxError

/-- `json.loads` on the modelled fragment: an integer literal or a
double-quoted string parses; any other text (identifiers, arithmetic
expressions) is rejected with `none`.  It never executes its input. -/
def jsonLoads (s : String) : Option PyVal :=
  let cs := s.data
  match parseIntLit cs with
  | some n => some (.pyInt n)
  | none =>
    if 2 ≤ cs.length ∧ cs.headD ' ' == '"' ∧ cs.getLastD ' ' == '"'
        ∧ (cs.drop 1).dropLast.all (fun c => c != '"' && c != '\\') then
      some (.pyStr (String.mk ((cs.drop 1).dropLast)))
    else none

instance : DecidableEq (Except PyErr PyVal)
  | .ok x, .ok y => decidable_of_iff (x = y) (by simp)
  | .error x, .error y => decidable_of_iff (x = y) (by simp)
  | .ok _, .error _ => isFalse (by simp)
  | .error _, .ok _ => isFalse (by simp)

/-! ### CacheManager (`performance_optimization.py` lines 34–95) -/

/-- Lexicographic (code-point) order on character lists — Python's `<=` on
strings, which `sorted` uses to order the key names. -/
def lexLE : List Char → List Char → Bool
  | [], _ => true
  | _ :: _, [] => false
  | a :: as, b :: bs => decide (a < b) || (a == b && lexLE as bs)

/-- Ordering of keyword arguments by name, as `sorted(kwargs.items())` orders
the items of a dict (whose keys are unique, so the tuple comparison never
reaches the values). -/
def kwLE (a b : String × PyVal) : Prop := lexLE a.1.data b.1.data = true

instance : DecidableRel kwLE := fun a b =>
  inferInstanceAs (Decidable (lexLE a.1.data b.1.data = true))

/-- `lexLE` is total. -/
theorem lexLE_total : ∀ s t, lexLE s t = true ∨ lexLE t s = true := by
  intro s
  induction s with
  | nil => intro t; exact Or.inl rfl
  | cons a as ih =>
    intro t
    cases t with
    | nil => exact Or.inr rfl
    | cons b bs =>
      rcases lt_trichotomy a b with h | h | h
      · exact Or.inl (by simp [lexLE, h])
      · subst h
        rcases ih bs with h2 | h2
        · exact Or.inl (by simp [lexLE, h2])
        · exact Or.inr (by simp [lexLE, h2])
      · exact Or.inr (by simp [lexLE, h])

/-- `lexLE` is transitive. -/
theorem lexLE_trans :
    ∀ s t u, lexLE s t = true → lexLE t u = true → lexLE s u = true := by
  intro s
  induction s with
  | nil => intro t u _ _; rfl
  | cons a as ih =>
    intro t u hst htu
    cases t with
    | nil => simp [lexLE] at hst
    | cons b bs =>
      cases u with
      | nil => simp [lexLE] at htu
      | cons c cs =>
        simp only [lexLE, Bool.or_eq_true, Bool.and_eq_true, decide_eq_true_eq,
          beq_iff_eq] at hst htu ⊢
        rcases hst with h1 | ⟨h1, h1r⟩ <;> rcases htu with h2 | ⟨h2, h2r⟩
        · exact Or.inl (lt_trans h1 h2)
        · exact Or.inl (h2 ▸ h1)
        · exact Or.inl (h1 ▸ h2)
        · exact Or.inr ⟨h1.trans h2, ih bs cs h1r h2r⟩

/-- `lexLE` is antisymmetric. -/
theorem lexLE_antisymm : ∀ s t, lexLE s t = true → lexLE t s = true → s = t := by
  intro s
  induction s with
  | nil =>
    intro t _ hts
    cases t with
    | nil => rfl
    | cons b bs => simp [lexLE] at hts
  | cons a as ih =>
    intro t hst hts
    cases t with
    | nil => simp [lexLE] at hst
    | cons b bs =>
      simp only [lexLE, Bool.or_eq_true, Bool.and_eq_true, decide_eq_true_eq,
        beq_iff_eq] at hst hts
      rcases hst with h1 | ⟨h1, h1r⟩
      · rcases hts with h2 | ⟨h2, _⟩
        · exact absurd (lt_trans h1 h2) (lt_irrefl a)
        · exact absurd h1 (h2 ▸ lt_irrefl b)
      · rcases hts with h2 | ⟨_, h2r⟩
        · exact absurd h2 (h1 ▸ lt_irrefl a)
        · rw [h1, ih bs h1r h2r]

instance : IsTotal (String × PyVal) kwLE := ⟨fun a b => lexLE_total a.1.data b.1.data⟩

instance : IsTrans (String × PyVal) kwLE :=
  ⟨fun _ _ _ h1 h2 => lexLE_trans _ _ _ h1 h2⟩

/-- Strict version of `kwLE`, used to compare sorted keyword lists. -/
def kwLT (a b : String × PyVal) : Prop := kwLE a b ∧ a.1 ≠ b.1

instance : IsAntisymm (String × PyVal) kwLT :=
  ⟨fun a b h1 h2 =>
    absurd (String.ext (lexLE_antisymm a.1.data b.1.data h1.1 h2.1)) h1.2⟩

/-- `sorted(kwargs.items())`. -/
def sortKwargs (l : List (String × PyVal)) : List (String × PyVal) :=
  List.insertionSort kwLE l

/-- The parts joined by `get_cache_key`: `str(arg)` for each positional
argument in order, then `f"{k}:{v}"` for the sorted keyword items. -/
def keyParts (args : List PyVal) (kwargs : List (String × PyVal)) : List String :=
  args.map pyStrOf ++ (sortKwargs kwargs).map (fun kv => kv.1 ++ ":" ++ pyStrOf kv.2)

/-- Python `sep.join(parts)`. -/
def joinSep (sep : String) : List String → String
  | [] => ""
  | p :: rest => rest.foldl (fun acc q => acc ++ sep ++ q) p

/-- `key_string = ":".join(key_parts)`. -/
def keyString (args : List PyVal) (kwargs : List (String × PyVal)) : String :=
  joinSep ":" (keyParts args kwargs)

/-- `CacheManager.get_cache_key`: the MD5 hex digest of the joined parts. -/
def get_cache_key (args : List PyVal) (kwargs : List (String × PyVal)) : String :=
  md5hex (keyString args kwargs)

/-- The full cache key written by `cache_result` (line 71):
`f"{key_prefix}:{self.get_cache_key(*args, **kwargs)}"`. -/
def makeKey (ns : String) (args : List PyVal) (kwargs : List (String × PyVal)) : String :=
  ns ++ ":" ++ get_cache_key args kwargs

/-- Modelled from the spec for comparison with `makeKey`: the same key
construction but with the cryptographic digest (SHA-256) the specification
prescribes in §4.1 in place of MD5. -/
def makeKeySpec (ns : String) (args : List PyVal) (kwargs : List (String × PyVal)) : String :=
  ns ++ ":" ++ sha256hex (keyString args kwargs)

/-! ### Redis store model

A Redis string store with per-key expiry: a list of (key, value, expiry-time)
triples with unique keys.  `SETEX k ttl v` stores `v` under `k` for `ttl`
seconds; `GET` returns the value while the current time is before the expiry
and nothing afterwards (or when the key was never set). -/

abbrev Redis := List (String × String × Nat)

/-- Lookup of the entry stored under a key. -/
def redisLookup : Redis → String → Option (String × Nat)
  | [], _ => none
  | e :: rest, k => if e.1 == k then some e.2 else redisLookup rest k

/-- `redis.get(k)` at time `now` (with `decode_responses=True` the value is a
string): the stored value while the key has not expired, absent otherwise. -/
def redisGet (r : Redis) (now : Nat) (k : String) : Option String :=
  match redisLookup r k with
  | some vt => if now < vt.2 then some vt.1 else none
  | none => none

/-- `redis.setex(k, ttl, v)` at time `now`: overwrites any existing entry and
starts a fresh TTL countdown. -/
def redisSetex (r : Redis) (now : Nat) (k : String) (ttl : Nat) (v : String) : Redis :=
  (k, v, now + ttl) :: r.filter (fun e => e.1 != k)

/-- Glob matcher used by `SCAN ... MATCH`: `*` matches any sequence, `?` any
single character, other characters literally (the character-class form `[…]`
does not occur in this module's patterns and is not modelled).  Structural
recursion on fuel; `p.length + s.length + 1` steps always suffice because
every recursive call shrinks `p.length + s.length`. -/
def matchGlobAux : Nat → List Char → List Char → Bool
  | 0, p, s => p.isEmpty && s.isEmpty
  | fuel + 1, p, s =>
    match p with
    | [] => s.isEmpty
    | pc :: ps =>
      if pc == '*' then
        matchGlobAux fuel ps s ||
          (match s with
           | [] => false
           | _ :: ss => matchGlobAux fuel (pc :: ps) ss)
      else
        match s with
        | [] => false
        | c :: ss => (pc == '?' || pc == c) && matchGlobAux fuel ps ss

/-- Whether glob pattern `p` matches the whole string `s`. -/
def matchGlob (p s : List Char) : Bool := matchGlobAux (p.length + s.length + 1) p s

/-- `CacheManager.invalidate_pattern`: delete every key matched by
`scan_iter(match=f"estimation_app:{pattern}")`.  Note the scan pattern is
prefixed with the Flask-Caching namespace `estimation_app:`. -/
def invalidate_pattern (r : Redis) (pat : String) : Redis :=
  r.filter (fun e => !matchGlob ("estimation_app:" ++ pat).data e.1.data)

/-- Result of one call through the `cache_result` wrapper: the returned (or
raised) value, the store afterwards, and whether the wrapped function ran. -/
structure CallResult where
  result : Except PyErr PyVal
  store : Redis
  invokedCompute : Bool
deriving DecidableEq

/-- The `cache_result(timeout, key_prefix)` wrapper (lines 65–90): build the
key, `GET` it; a *truthy* cached string (Python `if cached:` — any non-empty
string) is returned through `eval(cached)`; otherwise the wrapped function
runs and its result is stored with `setex(key, timeout, str(result))`. -/
def cachedCall (ns : String) (timeout : Nat)
    (func : List PyVal → List (String × PyVal) → PyVal)
    (args : List PyVal) (kwargs : List (String × PyVal))
    (r : Redis) (now : Nat) : CallResult :=
  let cacheKey := ns ++ ":" ++ get_cache_key args kwargs
  let runAndStore : CallResult :=
    let result := func args kwargs
    ⟨.ok result, redisSetex r now cacheKey timeout (pyStrOf result), true⟩
  match redisGet r now cacheKey with
  | some cached => if cached == "" then runAndStore else ⟨pyEval cached, r, false⟩
  | none => runAndStore

/-- `AIServiceOptimizer._return_cached` (line 345): returns `eval(cached_data)`. -/
def return_cached (cachedData : String) : Except PyErr PyVal := pyEval cachedData

/-- The store-level write performed on a cache miss: `setex(k, ttl, str(v))`. -/
def cacheSet (r : Redis) (now : Nat) (k : String) (ttl : Nat) (v : PyVal) : Redis :=
  redisSetex r now k ttl (pyStrOf v)

/-- The store-level read performed on a cache hit: `eval(get(k))` when the key
is live, absent otherwise. -/
def cacheGet (r : Redis) (now : Nat) (k : String) : Option (Except PyErr PyVal) :=
  (redisGet r now k).map pyEval

/-! ### AsyncProcessor tasks (`performance_optimization.py` lines 101–180)

`process_image_task` runs its body once: `analyze_image_with_ai` may raise;
on success `update_estimate_with_results` (the downstream side effect) runs
and the task returns; on exception the handler logs and re-raises, so the job
ends FAILED.  The task is registered with only `bind=True, name=...` — no
`autoretry_for`, `max_retries` or `self.retry` call — so under Celery's
default semantics a raising task is simply marked failed and never re-run. -/

/-- Outcome of one execution attempt of the task body, abstracting over the
failure classification the specification talks about. -/
inductive Attempt
  | ok (v : PyVal)
  | raiseTransient
  | raisePermanent
deriving DecidableEq

/-- Terminal state of a job. -/
inductive JobState
  | succeeded
  | failed
deriving DecidableEq

/-- Observable summary of a task's execution: terminal state, number of times
the downstream side effect (`update_estimate_with_results`) was applied, and
number of body executions. -/
structure TaskRun where
  finalState : JobState
  sideEffects : Nat
  attempts : Nat
deriving DecidableEq

/-- One execution of the `process_image` body. -/
def runAttempt (a : Attempt) : TaskRun :=
  match a with
  | .ok _ => ⟨.succeeded, 1, 1⟩
  | .raiseTransient => ⟨.failed, 0, 1⟩
  | .raisePermanent => ⟨.failed, 0, 1⟩

/-- `process_image_task` (lines 130–147): the body runs exactly once —
`behavior n` is the outcome the environment would give the `n`-th attempt,
and only attempt `0` ever happens because nothing in the task re-runs it. -/
def process_image_task (behavior : Nat → Attempt) : TaskRun :=
  runAttempt (behavior 0)

/-- Modelled from the spec (§4.4 state machine, absent from the source): run
attempts up to the remaining budget, retrying only transient failures; a
success applies the side effect exactly once, a permanent failure stops at
once. -/
def runWithRetries (behavior : Nat → Attempt) : Nat → Nat → TaskRun
  | 0, i => ⟨.failed, 0, i⟩
  | left + 1, i =>
    match behavior i with
    | .ok _ => ⟨.succeeded, 1, i + 1⟩
    | .raisePermanent => ⟨.failed, 0, i + 1⟩
    | .raiseTransient => runWithRetries behavior left (i + 1)

/-- Modelled from the spec: the §4.4 runner with a max-attempts budget. -/
def runTaskSpec (maxAttempts : Nat) (behavior : Nat → Attempt) : TaskRun :=
  runWithRetries behavior maxAttempts 0

/-- A task environment whose first attempt fails transiently and whose later
attempts would succeed. -/
def failThenSucceed : Nat → Attempt :=
  fun n => if n == 0 then .raiseTransient else .ok (.pyInt 1)

/-- The loop body of `batch_process_task` (lines 164–180): for the item at
index `i`, the progress metadata with current `i + 1` and total `total` is
persisted via `update_state` first, then the item is processed.  Returns the
ordered trace of persisted `(current, total)` progress updates and the
results list; the terminal (success) state is only reached after the whole
trace. -/
def batchLoop (proc : PyVal → PyVal) (total : Nat) : Nat → List PyVal → List (Nat × Nat) × List PyVal
  | _, [] => ([], [])
  | i, item :: rest =>
    let r := batchLoop proc total (i + 1) rest
    ((i + 1, total) :: r.1, proc item :: r.2)

/-- `batch_process_task`: iterate over the items with `enumerate`, reporting
progress `(i + 1, len(items))` before processing item `i`. -/
def batch_process_task (proc : PyVal → PyVal) (items : List PyVal) :
    List (Nat × Nat) × List PyVal :=
  batchLoop proc items.length 0 items

/-! ### PerformanceMonitor (`performance_optimization.py` lines 365–405)

`self.metrics` is a dict from operation name to the list of duration samples;
durations (`time.time()` differences) are modelled as rationals. -/

/-- The monitor's `metrics` dict: operation name → ordered duration samples. -/
abbrev Metrics := List (String × List ℚ)

/-- Dict lookup `metrics[name]`. -/
def lookupMetrics : Metrics → String → Option (List ℚ)
  | [], _ => none
  | e :: rest, name => if e.1 == name then some e.2 else lookupMetrics rest name

/-- The `finally` block's bookkeeping: create `metrics[name] = []` if the
name is absent, then `metrics[name].append(duration)`. -/
def mrecord : Metrics → String → ℚ → Metrics
  | [], name, d => [(name, [d])]
  | e :: rest, name, d =>
    if e.1 == name then (e.1, e.2 ++ [d]) :: rest else e :: mrecord rest name d

/-- `PerformanceMonitor.track_time(name)` around a body that yields at
`startT` and finishes (returning or raising) at `stopT`: the body's outcome
propagates unchanged, and the `finally` block records the duration on both
exit paths. -/
def track_time (m : Metrics) (name : String) (startT stopT : ℚ)
    (body : Unit → Except PyErr PyVal) : Except PyErr PyVal × Metrics :=
  let outcome := body ()
  (outcome, mrecord m name (stopT - startT))

/-- The samples recorded under `name` (empty when never recorded). -/
def samples (m : Metrics) (name : String) : List ℚ :=
  (lookupMetrics m name).getD []

/-- The dict returned by `get_statistics`. -/
structure Stats where
  count : Nat
  total : ℚ
  average : ℚ
  minSample : ℚ
  maxSample : ℚ
deriving DecidableEq

/-- Python `min` over a sample list (never called on `[]` by the code). -/
def listMin : List ℚ → ℚ
  | [] => 0
  | x :: xs => xs.foldl min x

/-- Python `max` over a sample list (never called on `[]` by the code). -/
def listMax : List ℚ → ℚ
  | [] => 0
  | x :: xs => xs.foldl max x

/-- Python `sum` over a sample list. -/
def listSum (l : List ℚ) : ℚ := l.foldl (· + ·) 0

/-- `PerformanceMonitor.get_statistics`: the empty dict (`none`) for an
absent name, otherwise count/total/average/min/max of the samples. -/
def get_statistics (m : Metrics) (name : String) : Option Stats :=
  match lookupMetrics m name with
  | none => none
  | some times =>
    some ⟨times.length, listSum times, listSum times / (times.length : ℚ),
      listMin times, listMax times⟩

/-- Monitor states reachable from the freshly constructed monitor, whose
metrics dict starts empty, by completed `track_time` scopes. -/
inductive Reachable : Metrics → Prop
  | empty : Reachable []
  | step (m : Metrics) (name : String) (startT stopT : ℚ)
      (body : Unit → Except PyErr PyVal) :
      Reachable m → Reachable (track_time m name startT stopT body).2

/-! ### Helper lemmas -/

/-- Sorting keyword items is invariant under permutation when the names are
distinct (as they are for a Python dict). -/
theorem sortKwargs_eq_of_perm (kw1 kw2 : List (String × PyVal))
    (hperm : kw1.Perm kw2) (hnd : (kw1.map Prod.fst).Nodup) :
    sortKwargs kw1 = sortKwargs kw2 := by
  have hs1 : List.Sorted kwLE (sortKwargs kw1) := List.sorted_insertionSort kwLE kw1
  have hs2 : List.Sorted kwLE (sortKwargs kw2) := List.sorted_insertionSort kwLE kw2
  have hp1 : (sortKwargs kw1).Perm kw1 := List.perm_insertionSort kwLE kw1
  have hp2 : (sortKwargs kw2).Perm kw2 := List.perm_insertionSort kwLE kw2
  have hp : (sortKwargs kw1).Perm (sortKwargs kw2) :=
    hp1.trans (hperm.trans hp2.symm)
  have hnd1 : ((sortKwargs kw1).map Prod.fst).Nodup :=
    ((hp1.map Prod.fst).nodup_iff).mpr hnd
  have hnd2 : ((sortKwargs kw2).map Prod.fst).Nodup :=
    ((hp2.map Prod.fst).nodup_iff).mpr (((hperm.map Prod.fst).nodup_iff).mp hnd)
  have strict : ∀ l : List (String × PyVal),
      List.Sorted kwLE l → (l.map Prod.fst).Nodup → List.Sorted kwLT l := by
    intro l hs hn
    have hne : l.Pairwise (fun a b => a.1 ≠ b.1) := List.pairwise_map.mp hn
    exact hs.and hne
  exact List.eq_of_perm_of_sorted hp (strict _ hs1 hnd1) (strict _ hs2 hnd2)

/-- The trace and results of the batch loop, in closed form. -/
theorem batchLoop_trace (proc : PyVal → PyVal) (total : Nat) :
    ∀ (l : List PyVal) (i : Nat),
      batchLoop proc total i l =
        ((List.range l.length).map (fun j => (i + j + 1, total)), l.map proc) := by
  intro l
  induction l with
  | nil => intro i; rfl
  | cons item rest ih =>
    intro i
    have harg : ((fun j => (i + j + 1, total)) ∘ Nat.succ) =
        (fun j => (i + 1 + j + 1, total)) := by
      funext j
      simp only [Function.comp, Nat.succ_eq_add_one, Prod.mk.injEq]
      exact ⟨by omega, trivial⟩
    simp only [batchLoop, ih (i + 1), List.length_cons, List.range_succ_eq_map,
      List.map_cons, List.map_map, harg, Nat.add_zero]

/-- Effect of the monitor's bookkeeping on the samples of every name. -/
theorem samples_mrecord (m : Metrics) (name other : String) (d : ℚ) :
    samples (mrecord m name d) other =
      if other = name then samples m other ++ [d] else samples m other := by
  induction m with
  | nil =>
    by_cases h : other = name
    · simp [mrecord, samples, lookupMetrics, h]
    · have hno : ¬ name = other := fun hc => h hc.symm
      simp [mrecord, samples, lookupMetrics, h, hno]
  | cons f rest ih =>
    by_cases h1 : f.1 = name
    · by_cases h2 : other = name
      · simp [mrecord, samples, lookupMetrics, h1, h2]
      · have hno : ¬ name = other := fun hc => h2 hc.symm
        simp [mrecord, samples, lookupMetrics, h1, h2, hno]
    · by_cases h2 : f.1 = other
      · have ho : ¬ other = name := fun hc => h1 (h2.trans hc)
        simp [mrecord, samples, lookupMetrics, h1, h2, ho]
      · by_cases h3 : other = name <;>
          simpa [mrecord, samples, lookupMetrics, h1, h2, h3] using ih

/-- The bookkeeping step preserves "every recorded list is non-empty". -/
theorem mrecord_nonempty :
    ∀ (m : Metrics) (name : String) (d : ℚ),
      (∀ e ∈ m, e.2 ≠ []) → ∀ e ∈ mrecord m name d, e.2 ≠ [] := by
  intro m
  induction m with
  | nil =>
    intro name d _ e he
    simp only [mrecord, List.mem_singleton] at he
    subst he
    simp
  | cons f rest ih =>
    intro name d hm e he
    by_cases h : f.1 = name
    · rw [mrecord, if_pos (by simp [h])] at he
      rcases List.mem_cons.mp he with he1 | he2
      · subst he1; simp
      · exact hm e (List.mem_cons_of_mem f he2)
    · rw [mrecord, if_neg (by simp [h])] at he
      rcases List.mem_cons.mp he with he1 | he2
      · rw [he1]; exact hm f (List.mem_cons_self f rest)
      · exact ih name d (fun x hx => hm x (List.mem_cons_of_mem f hx)) e he2

/-- Deleting the keys selected by a predicate removes exactly the matching
entries from the store's point of view: a `GET` on a selected key is absent,
a `GET` on any other key is unchanged. -/
theorem redisGet_filter (q : String → Bool) :
    ∀ (r : Redis) (now : Nat) (k : String),
      redisGet (r.filter (fun e => !q e.1)) now k =
        if q k then none else redisGet r now k := by
  intro r now k
  induction r with
  | nil => cases hq : q k <;> simp [redisGet, redisLookup, hq]
  | cons e rest ih =>
    cases hqe : q e.1
    · have h1 : (e :: rest).filter (fun e => !q e.1) =
          e :: rest.filter (fun e => !q e.1) := by
        simp [List.filter_cons, hqe]
      rw [h1]
      by_cases he : e.1 = k
      · have hqk : q k = false := he ▸ hqe
        rw [if_neg (by simp [hqk])]
        simp [redisGet, redisLookup, he]
      · have h2 : ∀ tail, redisGet (e :: tail) now k = redisGet tail now k :=
          fun tail => by simp [redisGet, redisLookup, he]
        rw [h2, ih, h2]
    · have h1 : (e :: rest).filter (fun e => !q e.1) =
          rest.filter (fun e => !q e.1) := by
        simp [List.filter_cons, hqe]
      rw [h1, ih]
      by_cases he : e.1 = k
      · have hqk : q k = true := he ▸ hqe
        simp [hqk]
      · have h2 : redisGet (e :: rest) now k = redisGet rest now k := by
          simp [redisGet, redisLookup, he]
        rw [h2]

/-- Every sample list in a reachable monitor state is non-empty. -/
theorem reachable_nonempty {m : Metrics} (h : Reachable m) : ∀ e ∈ m, e.2 ≠ [] := by
  induction h with
  | empty => intro e he; simp at he
  | step m name startT stopT body _ ih =>
    exact mrecord_nonempty m name (stopT - startT) ih

/-! ### The claims -/

set_option maxRecDepth 1000000

/-- C1: the claim says the cache read path deserializes stored values only
with a safe structured-data decoder and never evaluates the cached string as
code.  The code does the opposite: both `cache_result` (line 77) and
`_return_cached` (line 347) pass the cached string to `eval`, beside comments
admitting `json.loads` is what production should use.  Witnessed concretely:
after caching the *string value* `"1+1"`, the read path executes it and hands
back the integer 2, while `json.loads` would reject the same stored text. -/
theorem c1_read_path_executes_cached_text :
    (let f := fun (_ : List PyVal) (_ : List (String × PyVal)) => PyVal.pyStr "1+1"
     let first := cachedCall "result" 300 f [] [] [] 0
     let second := cachedCall "result" 300 f [] [] first.store 10
     first.result = .ok (.pyStr "1+1") ∧ second.result = .ok (.pyInt 2))
      ∧ return_cached "1+1" = .ok (.pyInt 2)
      ∧ jsonLoads "1+1" = none
      ∧ jsonLoads "5" = some (.pyInt 5) := by
  exact ⟨⟨by decide, by decide⟩, by decide, by decide, by decide⟩

/-- C2 (counterexample): the claim as stated requires the key to be the hex
rendering of a cryptographic digest such as SHA-256.  At the concrete input
`(namespace "result", positional [5], no named values)` the produced key is
the MD5 digest of `"5"` and differs from the SHA-256-based key the
specification describes (`makeKeySpec`). -/
theorem c2_key_uses_md5_not_sha256 :
    makeKey "result" [PyVal.pyInt 5] [] ≠ makeKeySpec "result" [PyVal.pyInt 5] []
      ∧ makeKey "result" [PyVal.pyInt 5] [] =
          "result:e4da3b7fbbce2345d7772b0674a318d5"
      ∧ makeKeySpec "result" [PyVal.pyInt 5] [] =
          "result:ef2d127de37b942baad06145e54b0c619a1f22327b2ebbcfbec78f5564afe39d" := by
  refine ⟨?_, by decide, by decide⟩
  decide

/-- C2 (amended): `makeKey` stringifies the positional values in order,
stringifies the named values sorted by name as `name:value` pairs, joins the
two sequences with `":"`, and prefixes the namespace to the hex rendering of
an *MD5* digest (not the cryptographic digest the claim requires) of the
joined string; `sortKwargs` really is a sorted permutation of the named
values, and the digest implementations agree with the reference vectors. -/
theorem c2_amended_key_structure_md5 :
    (∀ ns args kwargs, makeKey ns args kwargs =
        ns ++ ":" ++ md5hex (joinSep ":" (args.map pyStrOf ++
          (sortKwargs kwargs).map (fun kv => kv.1 ++ ":" ++ pyStrOf kv.2))))
      ∧ (∀ kwargs : List (String × PyVal),
          (sortKwargs kwargs).Perm kwargs ∧ List.Sorted kwLE (sortKwargs kwargs))
      ∧ md5hex "abc" = "900150983cd24fb0d6963f7d28e17f72"
      ∧ sha256hex "abc" =
          "ba7816bf8f01cfea414140de5dae2223b00361a396177a9cb410ff61f20015ad" := by
  refine ⟨fun ns args kwargs => rfl,
    fun kwargs => ⟨List.perm_insertionSort kwLE kwargs, List.sorted_insertionSort kwLE kwargs⟩,
    by decide, by decide⟩

/-- C3: identical inputs — the same positional sequence and the same
name→value pairs regardless of insertion order — always produce the same
key.  (The second half of the claim, collisions only with negligible
probability, fails: see the counterexample.) -/
theorem c3_key_deterministic (ns : String) (args : List PyVal)
    (kw1 kw2 : List (String × PyVal))
    (hperm : kw1.Perm kw2) (hnd : (kw1.map Prod.fst).Nodup) :
    makeKey ns args kw1 = makeKey ns args kw1
      ∧ makeKey ns args kw1 = makeKey ns args kw2 := by
  refine ⟨rfl, ?_⟩
  unfold makeKey get_cache_key keyString keyParts
  rw [sortKwargs_eq_of_perm kw1 kw2 hperm hnd]

/-- C3 (witness): the determinism theorem applied at a concrete input whose
named values are given in two different insertion orders. -/
theorem c3_key_deterministic_witness :
    makeKey "result" [] [("b", PyVal.pyInt 2), ("a", PyVal.pyInt 1)] =
      makeKey "result" [] [("a", PyVal.pyInt 1), ("b", PyVal.pyInt 2)] :=
  (c3_key_deterministic "result" []
    [("b", PyVal.pyInt 2), ("a", PyVal.pyInt 1)]
    [("a", PyVal.pyInt 1), ("b", PyVal.pyInt 2)]
    (List.Perm.swap ("a", PyVal.pyInt 1) ("b", PyVal.pyInt 2) [])
    (by decide)).2

/-- C3 (counterexample): the claim also asserts that inputs differing in
content collide only with negligible probability.  The parts are joined with
`":"` without escaping, so the distinct argument tuples `("a:b")` and
`("a", "b")` produce the *same* joined string and hence always the same key
— a deterministic collision, probability 1. -/
theorem c3_distinct_inputs_always_collide :
    [PyVal.pyStr "a:b"] ≠ [PyVal.pyStr "a", PyVal.pyStr "b"]
      ∧ keyString [PyVal.pyStr "a:b"] [] = keyString [PyVal.pyStr "a", PyVal.pyStr "b"] []
      ∧ makeKey "result" [PyVal.pyStr "a:b"] [] =
          makeKey "result" [PyVal.pyStr "a", PyVal.pyStr "b"] [] := by
  exact ⟨by decide, by decide, by decide⟩

/-- C4: the claim says two `cacheAround` calls with identical arguments
within the TTL invoke the computation exactly once, the second returning the
cached value.  The code breaks this in two ways, both rooted in the
`str()`/`eval()` serialization the inline comments flag as non-production:
a computation returning the empty string is re-invoked on the second call
(the cached `""` is falsy, so `if cached:` treats it as a miss), and a
computation returning the string `"hello"` makes the second call raise
`NameError` from `eval("hello")` instead of returning the value. -/
theorem c4_second_call_breaks_exactly_once :
    (let f := fun (_ : List PyVal) (_ : List (String × PyVal)) => PyVal.pyStr ""
     let first := cachedCall "result" 300 f [PyVal.pyInt 5] [] [] 0
     let second := cachedCall "result" 300 f [PyVal.pyInt 5] [] first.store 10
     first.invokedCompute = true ∧ second.invokedCompute = true)
      ∧ (let g := fun (_ : List PyVal) (_ : List (String × PyVal)) => PyVal.pyStr "hello"
         let first := cachedCall "result" 300 g [PyVal.pyInt 5] [] [] 0
         let second := cachedCall "result" 300 g [PyVal.pyInt 5] [] first.store 10
         second.invokedCompute = false ∧ second.result = .error .nameError) := by
  exact ⟨⟨by decide, by decide⟩, by decide, by decide⟩

/-- C5 (counterexample): the claim says `invalidate(pattern)` removes every
matching entry, including every entry written by `cacheAround`.  But
`cache_result` writes raw keys `f"{key_prefix}:{hash}"` while
`invalidate_pattern` scans only `f"estimation_app:{pattern}"`, so an entry
just written under namespace `result` survives invalidation with the
universal pattern `*` even though its key matches `*`. -/
theorem c5_invalidate_misses_cache_writes :
    (let f := fun (_ : List PyVal) (_ : List (String × PyVal)) => PyVal.pyInt 10
     let first := cachedCall "result" 300 f [PyVal.pyInt 5] [] [] 0
     let key := "result:" ++ get_cache_key [PyVal.pyInt 5] []
     redisGet first.store 1 key = some "10"
       ∧ matchGlob "*".data key.data = true
       ∧ redisGet (invalidate_pattern first.store "*") 1 key = some "10") := by
  exact ⟨by decide, by decide, by decide⟩

/-- C5 (amended): `invalidate_pattern(p)` removes exactly the keys matching
the glob `"estimation_app:" ++ p` and leaves every other key — including
every key `cache_result` writes, which carry no `estimation_app:` prefix —
with its stored value unchanged. -/
theorem c5_amended_invalidate_frame :
    ∀ (r : Redis) (pat : String) (now : Nat) (k : String),
      redisGet (invalidate_pattern r pat) now k =
        if matchGlob ("estimation_app:" ++ pat).data k.data then none
        else redisGet r now k := by
  exact fun r pat now k =>
    redisGet_filter (fun s => matchGlob ("estimation_app:" ++ pat).data s.data) r now k

/-- C6: the claim says `get` immediately after `set` returns a value equal to
the one stored (the serialize/deserialize round trip is the identity) and
that the key is absent after the TTL elapses.  The TTL clauses hold, but the
round trip is `eval(str(v))`, which is *not* the identity: storing the string
value `"hello"` makes the following `get` raise `NameError` instead of
returning it (integers do survive, as the second conjunct shows). -/
theorem c6_roundtrip_not_identity :
    cacheGet (cacheSet [] 0 "k" 60 (PyVal.pyStr "hello")) 0 "k" = some (.error .nameError)
      ∧ cacheGet (cacheSet [] 0 "k" 60 (PyVal.pyInt 5)) 0 "k" = some (.ok (PyVal.pyInt 5))
      ∧ cacheGet (cacheSet [] 0 "k" 60 (PyVal.pyInt 5)) 59 "k" = some (.ok (PyVal.pyInt 5))
      ∧ cacheGet (cacheSet [] 0 "k" 60 (PyVal.pyInt 5)) 60 "k" = none
      ∧ cacheGet [] 60 "k" = none := by
  exact ⟨by decide, by decide, by decide, by decide, by decide⟩

/-- C7 (counterexample): the claim says a transiently failing task that would
succeed on a later attempt ends SUCCEEDED.  The registered task configures no
retries at all (`bind=True, name=...` only, and the handler just re-raises),
so with the behavior "first attempt fails transiently, any retry would
succeed" the job ends FAILED after a single attempt with the side effect
never applied — unlike the specification's retry machine with any
max-attempts ≥ 2. -/
theorem c7_transient_failure_not_retried :
    (process_image_task failThenSucceed).finalState = .failed
      ∧ (process_image_task failThenSucceed).sideEffects = 0
      ∧ (process_image_task failThenSucceed).attempts = 1
      ∧ (runTaskSpec 2 failThenSucceed).finalState = .succeeded
      ∧ (runTaskSpec 2 failThenSucceed).sideEffects = 1
      ∧ process_image_task failThenSucceed ≠ runTaskSpec 2 failThenSucceed := by
  exact ⟨by decide, by decide, by decide, by decide, by decide, by decide⟩

/-- C7 (amended): the task performs no retries and no transient/permanent
classification: it behaves exactly like the specification's retry machine
with a budget of one attempt.  Any failure — transient or permanent — moves
the job straight to FAILED with the side effect unapplied, and a successful
attempt applies the downstream side effect exactly once. -/
theorem c7_amended_single_attempt :
    (∀ b, process_image_task b = runTaskSpec 1 b)
      ∧ (∀ v, process_image_task (fun _ => .ok v) = ⟨.succeeded, 1, 1⟩)
      ∧ process_image_task (fun _ => .raisePermanent) = ⟨.failed, 0, 1⟩
      ∧ process_image_task (fun _ => .raiseTransient) = ⟨.failed, 0, 1⟩ := by
  refine ⟨fun b => ?_, fun v => rfl, rfl, rfl⟩
  unfold process_image_task runTaskSpec runWithRetries runAttempt
  cases b 0 <;> rfl

/-- C8: for every batch the persisted progress trace is exactly
`(1, n), (2, n), …, (n, n)` in order — all positions reported before the
task returns (its terminal success state) — so the currents are strictly
increasing, and a 3-item batch reports `1/3, 2/3, 3/3` in order. -/
theorem c8_progress_trace_monotone :
    (∀ proc items, (batch_process_task proc items).1 =
        (List.range items.length).map (fun j => (j + 1, items.length)))
      ∧ (∀ proc items,
          ((batch_process_task proc items).1).Pairwise (fun a b => a.1 < b.1))
      ∧ (∀ proc a b c, (batch_process_task proc [a, b, c]).1 = [(1, 3), (2, 3), (3, 3)]) := by
  have htrace : ∀ (proc : PyVal → PyVal) (items : List PyVal),
      (batch_process_task proc items).1 =
        (List.range items.length).map (fun j => (j + 1, items.length)) := by
    intro proc items
    rw [batch_process_task, batchLoop_trace]
    simp
  refine ⟨htrace, fun proc items => ?_, fun proc a b c => by rw [htrace]; rfl⟩
  rw [htrace]
  exact List.pairwise_map.mpr ((List.pairwise_lt_range items.length).imp (by omega))

/-- C9: `track_time` hands back the wrapped operation's outcome unchanged —
a raised exception still propagates — and on every exit path appends exactly
one duration sample to the tracked name's ordered sequence, leaving every
other name's samples untouched. -/
theorem c9_track_time_records_all_paths :
    ∀ (m : Metrics) (name : String) (startT stopT : ℚ)
      (body : Unit → Except PyErr PyVal),
      (track_time m name startT stopT body).1 = body ()
        ∧ (∀ other, samples (track_time m name startT stopT body).2 other =
            if other = name then samples m other ++ [stopT - startT]
            else samples m other)
        ∧ (samples (track_time m name startT stopT body).2 name).length =
            (samples m name).length + 1 := by
  intro m name startT stopT body
  refine ⟨rfl, fun other => samples_mrecord m name other (stopT - startT), ?_⟩
  have h := samples_mrecord m name name (stopT - startT)
  rw [if_pos rfl] at h
  show (samples (mrecord m name (stopT - startT)) name).length =
    (samples m name).length + 1
  rw [h, List.length_append, List.length_singleton]

/-- C10: in every monitor state reachable through `track_time`, every
present name holds a non-empty sample list, so `get_statistics` is total:
an absent name yields the empty result, and a present name yields statistics
whose `count` is at least 1 — the divisions `total / count` are never by
zero (and `average` is exactly that quotient). -/
theorem c10_statistics_total_no_div_zero (m : Metrics) (name : String)
    (h : Reachable m) :
    (lookupMetrics m name = none → get_statistics m name = none)
      ∧ (∀ s, get_statistics m name = some s →
          1 ≤ s.count ∧ s.average = s.total / (s.count : ℚ)) := by
  constructor
  · intro hn
    simp [get_statistics, hn]
  · intro s hs
    unfold get_statistics at hs
    cases hl : lookupMetrics m name with
    | none => rw [hl] at hs; exact absurd hs (by simp)
    | some times =>
      rw [hl] at hs
      have hmem : ∃ e ∈ m, e.2 = times := by
        clear hs h
        induction m with
        | nil => simp [lookupMetrics] at hl
        | cons f rest ih =>
          by_cases hf : f.1 = name
          · rw [lookupMetrics, if_pos (by simp [hf])] at hl
            exact ⟨f, List.mem_cons_self f rest, by injection hl⟩
          · rw [lookupMetrics, if_neg (by simp [hf])] at hl
            obtain ⟨e, he, hev⟩ := ih hl
            exact ⟨e, List.mem_cons_of_mem f he, hev⟩
      obtain ⟨e, hem, hev⟩ := hmem
      have hne : times ≠ [] := hev ▸ reachable_nonempty h e hem
      have hcount : 1 ≤ times.length := by
        cases times with
        | nil => exact absurd rfl hne
        | cons x xs => simp
      obtain rfl : s = ⟨times.length, listSum times,
          listSum times / (times.length : ℚ), listMin times, listMax times⟩ := by
        injection hs with hs2
        exact hs2.symm
      exact ⟨hcount, rfl⟩

/-- The monitor state after one completed `track_time` scope of duration 1. -/
def mEx : Metrics := (track_time [] "op" 0 1 (fun _ => Except.ok (PyVal.pyInt 0))).2

/-- The statistics record `get_statistics` computes for `mEx` under `"op"`. -/
def sEx : Stats :=
  ⟨1, listSum [(1 : ℚ) - 0], listSum [(1 : ℚ) - 0] / ((1 : Nat) : ℚ),
    listMin [(1 : ℚ) - 0], listMax [(1 : ℚ) - 0]⟩

/-- C10 (witness): the totality theorem applied to the concrete reachable
state `mEx`, whose statistics under `"op"` have `count = 1`. -/
theorem c10_statistics_total_no_div_zero_witness :
    1 ≤ sEx.count ∧ sEx.average = sEx.total / (sEx.count : ℚ) :=
  (c10_statistics_total_no_div_zero mEx "op"
    (Reachable.step [] "op" 0 1 (fun _ => Except.ok (PyVal.pyInt 0))
      Reachable.empty)).2 sEx rfl

end EstimationApp
